import Mathlib

/-!
Formal model of the Subscription notification protocol implemented in
src/MyRedux.js (class Subscription, and the Connect container's
onStateChange method).

Subscription instances are identified by natural-number node ids.  A `World`
holds the mutable state the JavaScript objects share: the per-node
Subscription fields and the listener list of the single shared Redux store.
Methods of the Subscription class become functions from `World` to
`Option World`, with a fuel parameter bounding the JavaScript call stack;
`none` models an execution that does not return normally.  A callback value
(`this.onStateChange`) is identified by the node id of the Subscription that
owns it.
-/

/-- Identifier of a Subscription node; the node's own `onStateChange`
callback is identified by the same number. -/
abbrev NodeId := Nat

/-- The per-instance fields of `class Subscription` exactly as set up by its
constructor: `this.store` (the shared store reference; `none` when the object
is constructed without a valid store), `this.parentSub`, `this.onStateChange`,
`this.subscribed` and `this.listeners`. -/
structure SubState where
  store : Option Unit
  parentSub : Option NodeId
  onStateChange : NodeId
  subscribed : Bool
  listeners : List NodeId
deriving DecidableEq

/-- The shared mutable heap: every Subscription instance (indexed by node id)
plus the listener list of the one Redux store (`store.subscribe` appends a
callback to it). -/
structure World where
  subs : NodeId → SubState
  storeListeners : List NodeId

/-- The constructor body of `class Subscription`:
`this.store = store; this.parentSub = parentSub;
this.onStateChange = onStateChange; this.subscribed = false;
this.listeners = []`.  It stores its three arguments and initializes the two
remaining fields; the source performs no validation of any kind. -/
def construct (store : Option Unit) (parentSub : Option NodeId)
    (onStateChange : NodeId) : SubState :=
  { store := store, parentSub := parentSub, onStateChange := onStateChange,
    subscribed := false, listeners := [] }

/-- `new Subscription(store, parentSub, onStateChange)` executed at a node id
`i` of the world: the freshly constructed object replaces slot `i`; nothing
else in the world is touched. -/
def newSubscription (w : World) (i : NodeId) (store : Option Unit)
    (parentSub : Option NodeId) (onStateChange : NodeId) : World :=
  { w with subs := fun j => if j = i then construct store parentSub onStateChange
                            else w.subs j }

/-- The field write `this.subscribed = true` at node `i`. -/
def setSubscribed (w : World) (i : NodeId) : World :=
  { w with subs := fun j => if j = i then { w.subs j with subscribed := true }
                            else w.subs j }

/-- The statement `this.listeners.push(listener)` at node `i`. -/
def pushListener (w : World) (i : NodeId) (listener : NodeId) : World :=
  { w with subs := fun j =>
      if j = i then { w.subs j with listeners := (w.subs j).listeners ++ [listener] }
      else w.subs j }

/-- The store call `store.subscribe(cb)`: the Redux store appends the callback
to its listener list. -/
def storeSubscribe (w : World) (cb : NodeId) : World :=
  { w with storeListeners := w.storeListeners ++ [cb] }

mutual

/-- `Subscription.trySubscribe`, translated line by line from the source:
`if (!this.subscribed) { if (this.parentSub !== null)
{ this.parentSub.addNestedSub(this.onStateChange); } } else
{ this.store.subscribe(this.onStateChange); } this.subscribed = true;`.
Note the `else` in the source is attached to the outer
`if (!this.subscribed)`, so the store is contacted only when the node is
already subscribed, and a first call on a node without a parent registers
nothing anywhere.  Accessing `subscribe` on an absent store aborts. -/
def trySubscribe : Nat → World → NodeId → Option World
  | 0, _, _ => none
  | Nat.succ fuel, w, i =>
    (if !(w.subs i).subscribed then
      match (w.subs i).parentSub with
      | some p => addNestedSub fuel w p (w.subs i).onStateChange
      | none => some w
    else
      match (w.subs i).store with
      | some _ => some (storeSubscribe w (w.subs i).onStateChange)
      | none => none).map (fun w1 => setSubscribed w1 i)

/-- `Subscription.addNestedSub(listener)`: the source reads
`this.trySubscribe() { this.listeners.push(listener); }`, i.e. it first runs
`this.trySubscribe()` and then appends the listener to `this.listeners`. -/
def addNestedSub : Nat → World → NodeId → NodeId → Option World
  | 0, _, _, _ => none
  | Nat.succ fuel, w, i, listener =>
    (trySubscribe fuel w i).map (fun w1 => pushListener w1 i listener)

end

/-- `Subscription.notifyNestedSubs` over opaque listener callbacks acting on
an abstract shared state (the callbacks take no arguments in the source; the
state they act on is the ambient environment their closures capture):
`this.listeners.forEach(listener => listener())`. -/
def notifyNestedSubsEach {σ : Type} (listeners : List (σ → σ)) (st : σ) : σ :=
  listeners.foldl (fun acc listener => listener acc) st

mutual

/-- Invocation of a node's logging `selfNotify` callback in the cascade
scenario of the spec: the callback appends its own id to the shared log and
then, as the container contract requires, runs its own Subscription's
`notifyNestedSubs`. -/
def invokeCallback : Nat → World → NodeId → List NodeId → Option (List NodeId)
  | 0, _, _, _ => none
  | Nat.succ fuel, w, j, log => notifyNestedSubs fuel w j (log ++ [j])

/-- `Subscription.notifyNestedSubs` at node `i` in the cascade scenario:
`this.listeners.forEach(listener => listener())`, where each registered
listener is the `onStateChange` of the node that registered it.  The world is
only read, never modified. -/
def notifyNestedSubs : Nat → World → NodeId → List NodeId → Option (List NodeId)
  | 0, _, _, _ => none
  | Nat.succ fuel, w, i, log => invokeList fuel w ((w.subs i).listeners) log

/-- The `forEach` loop over a listener list: invoke each callback from left to
right, threading the log. -/
def invokeList : Nat → World → List NodeId → List NodeId → Option (List NodeId)
  | 0, _, _, _ => none
  | Nat.succ _, _, [], log => some log
  | Nat.succ fuel, w, j :: rest, log =>
    match invokeCallback fuel w j log with
    | some log1 => invokeList fuel w rest log1
    | none => none

end

/-- `Connect.onStateChange`: `this.selector.run(this.props)` recomputes
`this.selector.shouldComponentUpdate` (passed here as the resulting flag);
when the flag is false the method immediately runs
`this.subscription.notifyNestedSubs()`; in the other branch the source
evaluates `this.componentDidUpdate.this.notifyNestedSubsOnComponentDidUpdate`,
a property access on `undefined` that throws a TypeError before `setState`,
modelled as abnormal termination. -/
def onStateChange (fuel : Nat) (w : World) (i : NodeId)
    (shouldComponentUpdate : Bool) (log : List NodeId) : Option (List NodeId) :=
  if !shouldComponentUpdate then
    notifyNestedSubs fuel w i log
  else
    none

/-- The world produced by the Provider/Connect constructors for a descending
chain of containers sharing one store: node 0 is the root (its `parentSub`
context is the Provider's `null`), node `i + 1` was constructed with node `i`
as its parent; every node holds the shared store, its own `onStateChange`,
`subscribed = false` and empty listeners; the store has no listeners yet. -/
def initWorld : World :=
  { subs := fun i =>
      { store := some (), parentSub := if i = 0 then none else some (i - 1),
        onStateChange := i, subscribed := false, listeners := [] },
    storeListeners := [] }

/-- React mounts descendants before ancestors: for a chain of `n` containers,
`componentDidMount` (which runs `this.subscription.trySubscribe()`) fires at
node `n - 1` first, then `n - 2`, ..., then node 0. -/
def mountChain (fuel : Nat) : Nat → World → Option World
  | 0, w => some w
  | Nat.succ n, w =>
    match trySubscribe fuel w n with
    | some w1 => mountChain fuel n w1
    | none => none

/-- One simulated store change: the Redux store invokes every callback
registered with it, in subscription order. -/
def storeChange (fuel : Nat) (w : World) : Option (List NodeId) :=
  invokeList fuel w w.storeListeners []

/-- The node names used in the spec's three-node scenario: node 0 is "root",
node 1 is "A", node 2 is "B". -/
def tagOf : NodeId → String
  | 0 => "root"
  | 1 => "A"
  | 2 => "B"
  | _ => "other"

/-! Projection lemmas for the primitive heap effects. -/

theorem subs_setSubscribed (w : World) (i j : NodeId) :
    (setSubscribed w i).subs j
      = if j = i then { w.subs j with subscribed := true } else w.subs j := rfl

theorem store_setSubscribed (w : World) (i : NodeId) :
    (setSubscribed w i).storeListeners = w.storeListeners := rfl

theorem subs_pushListener (w : World) (i l j : NodeId) :
    (pushListener w i l).subs j
      = if j = i then { w.subs j with listeners := (w.subs j).listeners ++ [l] }
        else w.subs j := rfl

theorem store_pushListener (w : World) (i l : NodeId) :
    (pushListener w i l).storeListeners = w.storeListeners := rfl

theorem subs_storeSubscribe (w : World) (cb j : NodeId) :
    (storeSubscribe w cb).subs j = w.subs j := rfl

theorem subs_newSubscription (w : World) (i : NodeId) (st : Option Unit)
    (p : Option NodeId) (cb j : NodeId) :
    (newSubscription w i st p cb).subs j
      = if j = i then construct st p cb else w.subs j := rfl

theorem store_newSubscription (w : World) (i : NodeId) (st : Option Unit)
    (p : Option NodeId) (cb : NodeId) :
    (newSubscription w i st p cb).storeListeners = w.storeListeners := rfl

/-! Claim theorems. -/

/-- C1: the claim says that after every node of an N-chain has run its attach,
exactly one callback — the root's — is registered with the store, for every N.
The code violates this: the misplaced `else` in `trySubscribe` means a root's
first call registers nothing, while every repeated call registers with the
store.  For N = 1 the store ends with no listener at all; for N = 3 (nodes
mounted bottom-up, so that the two non-leaf nodes receive a second
`trySubscribe` from their own `componentDidMount`) the store ends with the
two listeners [1, 0] — two registrations, one of them from the non-root
node 1. -/
theorem c1_store_registration_bug :
    (mountChain 20 1 initWorld).map World.storeListeners = some [] ∧
    (mountChain 20 3 initWorld).map World.storeListeners = some [1, 0] ∧
    some ([] : List NodeId) ≠ some [0] ∧
    some ([1, 0] : List NodeId) ≠ some [0] := by
  refine ⟨by decide, by decide, by decide, by decide⟩

/-- C2: the claim says a second `trySubscribe`, made when `subscribed` is
already true, returns immediately without registering anything.  The code
violates this: on a fresh root node the first call leaves the store's listener
list empty, and the second call — taking the misplaced `else` branch —
appends the node's `onStateChange` to the store's listener list. -/
theorem c2_second_attach_registers_with_store :
    (trySubscribe 5 initWorld 0).map World.storeListeners = some [] ∧
    ((trySubscribe 5 initWorld 0).bind (fun w => trySubscribe 5 w 0)).map
      World.storeListeners = some [0] ∧
    some ([0] : List NodeId) ≠ some [] := by
  refine ⟨by decide, by decide, by decide⟩

/-- C3: the claim says the first `trySubscribe` on a root Subscription
(parent none, `subscribed` false) registers its `onStateChange` with the
store.  The code violates this: the first call on node 0 of `initWorld`
returns normally with the store's listener list still empty — the misplaced
`else` means no registration of any kind is performed; the call only sets the
`subscribed` flag. -/
theorem c3_first_root_attach_registers_nothing :
    (trySubscribe 5 initWorld 0).map World.storeListeners = some [] ∧
    (trySubscribe 5 initWorld 0).map (fun w => (w.subs 0).subscribed) = some true ∧
    (trySubscribe 5 initWorld 0).map (fun w => (w.subs 0).listeners) = some [] ∧
    some ([] : List NodeId) ≠ some [0] := by
  refine ⟨by decide, by decide, by decide, by decide⟩

/-- C6: the claim says that for the fully mounted chain root → A → B one
simulated store change produces the log ["root", "A", "B"].  The code
violates this: after mounting (B, then A, then root, each calling
`trySubscribe` once) the store's listener list is [A, root] — a consequence
of the misplaced `else` — so the store change invokes A's callback before the
root's, and the root's cascade then reaches A and B a second time, producing
["A", "B", "root", "A", "B"]. -/
theorem c6_notification_order_bug :
    ((mountChain 20 3 initWorld).bind (storeChange 20)).map (List.map tagOf)
      = some ["A", "B", "root", "A", "B"] ∧
    some ["A", "B", "root", "A", "B"] ≠ some ["root", "A", "B"] := by
  refine ⟨by decide, by decide⟩

/-- C5: `notifyNestedSubs` invokes every callback currently in
`this.listeners` exactly once each, in registration order, and invokes
nothing else (no recursion into grandchildren): instantiating each opaque
listener with the effect of appending its own identifier to a shared log,
the `forEach` loop extends the log by exactly the identifier list, in
order. -/
theorem c5_notify_each_in_order {α : Type} (ids : List α) (log : List α) :
    notifyNestedSubsEach (ids.map (fun id acc => acc ++ [id])) log = log ++ ids := by
  induction ids generalizing log with
  | nil => simp [notifyNestedSubsEach]
  | cons a rest ih =>
    simp only [List.map_cons, notifyNestedSubsEach, List.foldl_cons]
    have h := ih (log ++ [a])
    simp only [notifyNestedSubsEach] at h
    simp [h]

/-- C5 witness: the `forEach` loop evaluated at a concrete listener list and
a concrete starting log. -/
theorem c5_witness :
    notifyNestedSubsEach (([3, 1, 2] : List NodeId).map (fun id acc => acc ++ [id])) [7]
      = [7, 3, 1, 2] :=
  c5_notify_each_in_order [3, 1, 2] [7]

/-- C7: constructing a Subscription stores its three arguments and
initializes `subscribed = false` and `listeners = []`, and has no other
effect on the world: every other node's state and the store's listener list
are unchanged — in particular the parent's listener list and the store's
registrations. -/
theorem c7_constructor_is_pure (w : World) (i : NodeId) (st : Option Unit)
    (p : Option NodeId) (cb : NodeId) :
    (newSubscription w i st p cb).subs i
      = { store := st, parentSub := p, onStateChange := cb,
          subscribed := false, listeners := [] } ∧
    (∀ j, j ≠ i → (newSubscription w i st p cb).subs j = w.subs j) ∧
    (newSubscription w i st p cb).storeListeners = w.storeListeners := by
  refine ⟨?_, ?_, rfl⟩
  · simp [newSubscription, construct]
  · intro j hj
    simp [newSubscription, hj]

/-- C9 counterexample: the claim says constructing a Subscription with no
valid store and no parent raises a fatal configuration error and never
silently yields a usable object.  The source constructor performs no
validation: with `store = none` and `parentSub = none` it returns a normal
record, and both `trySubscribe` and `addNestedSub` can later be called on the
resulting node and return normally. -/
theorem c9_counterexample :
    construct none none 0
      = { store := none, parentSub := none, onStateChange := 0,
          subscribed := false, listeners := [] } ∧
    (trySubscribe 2 (newSubscription initWorld 7 none none 7) 7).isSome = true ∧
    (addNestedSub 3 (newSubscription initWorld 7 none none 7) 7 9).isSome = true := by
  refine ⟨rfl, by decide, by decide⟩

/-- C9 amended: constructing a Subscription performs no validation; with no
store and no parent it silently yields a Subscription with the given fields
stored, `subscribed = false` and empty listeners, leaving the store's
registrations untouched, and attach (which, parent being none, returns
normally without touching the store) and registerChild can later be called on
it. -/
theorem c9_amended_no_validation (w : World) (i cb : NodeId) :
    (newSubscription w i none none cb).subs i = construct none none cb ∧
    (newSubscription w i none none cb).storeListeners = w.storeListeners ∧
    (∃ w1, trySubscribe 1 (newSubscription w i none none cb) i = some w1 ∧
      w1.storeListeners = w.storeListeners ∧ (w1.subs i).subscribed = true) ∧
    (∀ l, ∃ w2, addNestedSub 2 (newSubscription w i none none cb) i l = some w2) := by
  refine ⟨by simp [subs_newSubscription], rfl, ?_, ?_⟩
  · refine ⟨setSubscribed (newSubscription w i none none cb) i, ?_, rfl, ?_⟩
    · simp [trySubscribe, subs_newSubscription, construct]
    · simp [subs_setSubscribed, subs_newSubscription, construct]
  · intro l
    refine ⟨pushListener (setSubscribed (newSubscription w i none none cb) i) i l, ?_⟩
    show (trySubscribe 1 (newSubscription w i none none cb) i).map _ = _
    have h1 : trySubscribe 1 (newSubscription w i none none cb) i
        = some (setSubscribed (newSubscription w i none none cb) i) := by
      simp [trySubscribe, subs_newSubscription, construct]
    rw [h1]
    rfl

/-- C9 amended witness: the validation-free construction evaluated at a
concrete world and node. -/
theorem c9_amended_witness :
    (newSubscription initWorld 3 none none 3).subs 3 = construct none none 3 ∧
    (newSubscription initWorld 3 none none 3).storeListeners = initWorld.storeListeners ∧
    (∃ w1, trySubscribe 1 (newSubscription initWorld 3 none none 3) 3 = some w1 ∧
      w1.storeListeners = initWorld.storeListeners ∧ (w1.subs 3).subscribed = true) ∧
    (∀ l, ∃ w2, addNestedSub 2 (newSubscription initWorld 3 none none 3) 3 l = some w2) :=
  c9_amended_no_validation initWorld 3 3

/-- Postcondition of `trySubscribe`: the final statement
`this.subscribed = true` makes every normally returning call leave the
node's flag set. -/
theorem subscribed_after_trySubscribe :
    ∀ fuel w i w', trySubscribe fuel w i = some w' → (w'.subs i).subscribed = true := by
  intro fuel w i w' h
  cases fuel with
  | zero => simp [trySubscribe] at h
  | succ f =>
    simp only [trySubscribe] at h
    rw [Option.map_eq_some'] at h
    obtain ⟨w1, _, rfl⟩ := h
    simp [subs_setSubscribed]

/-- Monotonicity of the `subscribed` flag: no Subscription operation ever
resets a flag that is already true. -/
theorem subscribed_mono :
    ∀ fuel : Nat,
      (∀ w i w', trySubscribe fuel w i = some w' →
        ∀ j, (w.subs j).subscribed = true → (w'.subs j).subscribed = true) ∧
      (∀ w i l w', addNestedSub fuel w i l = some w' →
        ∀ j, (w.subs j).subscribed = true → (w'.subs j).subscribed = true) := by
  intro fuel
  induction fuel with
  | zero =>
    constructor
    · intro w i w' h
      simp [trySubscribe] at h
    · intro w i l w' h
      simp [addNestedSub] at h
  | succ f ih =>
    constructor
    · intro w i w' h j hj
      simp only [trySubscribe] at h
      rw [Option.map_eq_some'] at h
      obtain ⟨w1, h1, rfl⟩ := h
      have hw1 : (w1.subs j).subscribed = true := by
        cases hs : (w.subs i).subscribed with
        | true =>
          simp [hs] at h1
          cases hst : (w.subs i).store with
          | none => simp [hst] at h1
          | some u =>
            simp [hst] at h1
            subst h1
            exact hj
        | false =>
          simp [hs] at h1
          cases hp : (w.subs i).parentSub with
          | some p =>
            simp [hp] at h1
            exact ih.2 w p _ w1 h1 j hj
          | none =>
            simp [hp] at h1
            subst h1
            exact hj
      rcases eq_or_ne j i with rfl | hne
      · simp [subs_setSubscribed]
      · simp [subs_setSubscribed, hne]
        exact hw1
    · intro w i l w' h j hj
      simp only [addNestedSub] at h
      rw [Option.map_eq_some'] at h
      obtain ⟨w1, h1, rfl⟩ := h
      have hw1 : (w1.subs j).subscribed = true := ih.1 w i w1 h1 j hj
      rcases eq_or_ne j i with rfl | hne
      · simp [subs_pushListener]
        exact hw1
      · simp [subs_pushListener, hne]
        exact hw1

/-- C10: every `trySubscribe` call that returns normally leaves the node's
`subscribed` flag true — the assignment is unconditional, including on a
first call at a root node, which performs no registration of any kind — and
no Subscription operation (`trySubscribe` or `addNestedSub`, at any node)
ever resets an already-true flag to false. -/
theorem c10_subscribed_monotone :
    (∀ fuel w i w', trySubscribe fuel w i = some w' →
      (w'.subs i).subscribed = true) ∧
    (∀ fuel w i w' j, trySubscribe fuel w i = some w' →
      (w.subs j).subscribed = true → (w'.subs j).subscribed = true) ∧
    (∀ fuel w i l w' j, addNestedSub fuel w i l = some w' →
      (w.subs j).subscribed = true → (w'.subs j).subscribed = true) :=
  ⟨subscribed_after_trySubscribe,
   fun fuel w i w' j h hj => (subscribed_mono fuel).1 w i w' h j hj,
   fun fuel w i l w' j h hj => (subscribed_mono fuel).2 w i l w' h j hj⟩

/-- Concrete worlds for the C10 witness: the root after its first attach,
after a repeated attach, and after a repeated attach through
`addNestedSub`. -/
def w10a : World := setSubscribed initWorld 0

def w10b : World := setSubscribed (storeSubscribe w10a 0) 0

def w10c : World := pushListener w10b 0 5

/-- C10 witness: the three conjuncts applied at concrete inputs. -/
theorem c10_witness :
    ((w10a.subs 0).subscribed = true) ∧
    ((w10b.subs 0).subscribed = true) ∧
    ((w10c.subs 0).subscribed = true) :=
  ⟨c10_subscribed_monotone.1 1 initWorld 0 w10a rfl,
   c10_subscribed_monotone.2.1 1 w10a 0 w10b 0 rfl (by decide),
   c10_subscribed_monotone.2.2 2 w10a 0 5 w10c 0 rfl (by decide)⟩

/-- Postcondition of one `addNestedSub` call at node `p` of the fresh chain
world, registering callback `c`: the call returns normally; every node of the
chain up to `p` ends attached; each strict ancestor holds exactly the one
listener its child registered during the cascade; node `p` holds exactly
`[c]`; nothing above `p` and nothing at the store changed. -/
def chainPost (p c fuel : Nat) : Prop :=
  ∃ w', addNestedSub fuel initWorld p c = some w' ∧
    (∀ k, k ≤ p → (w'.subs k).subscribed = true) ∧
    (∀ k, k < p → (w'.subs k).listeners = [k + 1]) ∧
    (w'.subs p).listeners = [c] ∧
    (∀ k, p < k → w'.subs k = initWorld.subs k) ∧
    w'.storeListeners = []

/-- One `addNestedSub` at the top of a fresh chain transitively attaches the
whole ancestor chain, exactly once each. -/
theorem addNestedSub_chain_attaches :
    ∀ p c fuel, 2 * p + 2 ≤ fuel → chainPost p c fuel := by
  intro p
  induction p with
  | zero =>
    intro c fuel hf
    obtain ⟨f, rfl⟩ : ∃ f, fuel = f + 2 := ⟨fuel - 2, by omega⟩
    refine ⟨pushListener (setSubscribed initWorld 0) 0 c, rfl, ?_, ?_, ?_, ?_, rfl⟩
    · intro k hk
      have hk0 : k = 0 := Nat.le_zero.mp hk
      subst hk0
      simp [subs_pushListener, subs_setSubscribed]
    · intro k hk
      exact absurd hk (Nat.not_lt_zero k)
    · simp [subs_pushListener, subs_setSubscribed, initWorld]
    · intro k hk
      have hne : k ≠ 0 := by omega
      simp [subs_pushListener, subs_setSubscribed, hne]
  | succ p ih =>
    intro c fuel hf
    obtain ⟨f, rfl⟩ : ∃ f, fuel = f + 2 := ⟨fuel - 2, by omega⟩
    obtain ⟨w2, hw, hsub, hlt, hself, hgt, hst⟩ := ih (p + 1) f (by omega)
    have hstep : addNestedSub (f + 2) initWorld (p + 1) c
        = some (pushListener (setSubscribed w2 (p + 1)) (p + 1) c) := by
      show (trySubscribe (f + 1) initWorld (p + 1)).map _ = _
      have ht : trySubscribe (f + 1) initWorld (p + 1)
          = (addNestedSub f initWorld p (p + 1)).map
              (fun w1 => setSubscribed w1 (p + 1)) := rfl
      rw [ht, hw]
      rfl
    refine ⟨pushListener (setSubscribed w2 (p + 1)) (p + 1) c, hstep, ?_, ?_, ?_, ?_, ?_⟩
    · intro k hk
      rcases eq_or_ne k (p + 1) with rfl | hne
      · simp [subs_pushListener, subs_setSubscribed]
      · have hk2 : k ≤ p := by omega
        simp [subs_pushListener, subs_setSubscribed, hne]
        exact hsub k hk2
    · intro k hk
      have hne : k ≠ p + 1 := by omega
      simp [subs_pushListener, subs_setSubscribed, hne]
      rcases Nat.lt_or_ge k p with h | h
      · exact hlt k h
      · have hkp : k = p := by omega
        subst hkp
        exact hself
    · have h1 : w2.subs (p + 1) = initWorld.subs (p + 1) := hgt (p + 1) (by omega)
      simp [subs_pushListener, subs_setSubscribed, h1, initWorld]
    · intro k hk
      have hne : k ≠ p + 1 := by omega
      simp [subs_pushListener, subs_setSubscribed, hne]
      exact hgt k (by omega)
    · simp [store_pushListener, store_setSubscribed, hst]

/-- C4: `addNestedSub` on a node first invokes that node's own
`trySubscribe` and only then appends the listener to the node's listener
list; consequently one `addNestedSub` at the top of a not-yet-attached parent
chain transitively attaches every ancestor up to the root exactly once each —
each strict ancestor ends with exactly one registered listener (its child's
callback), the registered node ends with exactly the externally registered
callback, and nodes outside the chain and the store are untouched. -/
theorem c4_register_child_attaches_chain :
    (∀ (fuel : Nat) (w : World) (p c : NodeId),
      addNestedSub (fuel + 1) w p c
        = (trySubscribe fuel w p).map (fun w1 => pushListener w1 p c)) ∧
    (∀ p c fuel, 2 * p + 2 ≤ fuel → chainPost p c fuel) :=
  ⟨fun _ _ _ _ => rfl, addNestedSub_chain_attaches⟩

/-- C4 witness: the decomposition and the chain postcondition at concrete
inputs (chain of four nodes, listener 9 registered at node 3, fuel 10). -/
theorem c4_witness :
    (addNestedSub (5 + 1) initWorld 3 9
      = (trySubscribe 5 initWorld 3).map (fun w1 => pushListener w1 3 9)) ∧
    (2 * 3 + 2 ≤ 10 ∧ chainPost 3 9 10) :=
  ⟨c4_register_child_attaches_chain.1 5 initWorld 3 9,
   by decide,
   c4_register_child_attaches_chain.2 3 9 10 (by decide)⟩

/-- Shape of the listener structure below a node: a tree whose nodes are
Subscription ids; the children of a node are the nodes whose callbacks are in
its listener list, in registration order. -/
inductive SubTree where
  | mk : NodeId → List SubTree → SubTree

/-- The node id at the root of a subtree. -/
def SubTree.root : SubTree → NodeId
  | .mk i _ => i

mutual

/-- Preorder traversal of a subtree: the order in which the cascade reaches
the callbacks. -/
def preorder : SubTree → List NodeId
  | .mk i cs => i :: preorderList cs

/-- Preorder traversal of a list of sibling subtrees. -/
def preorderList : List SubTree → List NodeId
  | [] => []
  | t :: ts => preorder t ++ preorderList ts

end

mutual

/-- A world realizes a subtree when every node's listener list consists of
exactly its children's callbacks, in order. -/
def treeOk (w : World) : SubTree → Prop
  | .mk i cs => (w.subs i).listeners = cs.map SubTree.root ∧ treesOk w cs

/-- A world realizes a list of sibling subtrees. -/
def treesOk (w : World) : List SubTree → Prop
  | [] => True
  | t :: ts => treeOk w t ∧ treesOk w ts

end

mutual

/-- Call-stack fuel sufficient to run the cascade over a subtree. -/
def fuelFor : SubTree → Nat
  | .mk _ cs => 2 + fuelForList cs

/-- Call-stack fuel sufficient to run the cascade over sibling subtrees. -/
def fuelForList : List SubTree → Nat
  | [] => 1
  | t :: ts => 1 + fuelFor t + fuelForList ts

end

/-- The notification cascade over any realized subtree appends exactly the
preorder traversal of that subtree to the log. -/
theorem cascade_tree :
    ∀ fuel : Nat,
      (∀ t w log, treeOk w t → fuelFor t ≤ fuel →
        invokeCallback fuel w t.root log = some (log ++ preorder t)) ∧
      (∀ ts w log, treesOk w ts → fuelForList ts ≤ fuel →
        invokeList fuel w (ts.map SubTree.root) log = some (log ++ preorderList ts)) := by
  intro fuel
  induction fuel using Nat.strong_induction_on with
  | _ fuel ih =>
    constructor
    · intro t w log hok hf
      obtain ⟨i, cs⟩ := t
      simp only [treeOk] at hok
      simp only [fuelFor] at hf
      obtain ⟨f, rfl⟩ : ∃ f, fuel = f + 2 := ⟨fuel - 2, by omega⟩
      show notifyNestedSubs (f + 1) w i (log ++ [i]) = _
      show invokeList f w ((w.subs i).listeners) (log ++ [i]) = _
      rw [hok.1]
      have h := (ih f (by omega)).2 cs w (log ++ [i]) hok.2 (by omega)
      rw [h]
      simp [preorder]
    · intro ts w log hok hf
      cases ts with
      | nil =>
        obtain ⟨f, rfl⟩ : ∃ f, fuel = f + 1 := ⟨fuel - 1, by simp [fuelForList] at hf; omega⟩
        simp [invokeList, preorderList]
      | cons t rest =>
        simp only [treesOk] at hok
        simp only [fuelForList] at hf
        obtain ⟨f, rfl⟩ : ∃ f, fuel = f + 1 := ⟨fuel - 1, by omega⟩
        show (match invokeCallback f w t.root log with
              | some log1 => invokeList f w (rest.map SubTree.root) log1
              | none => none) = _
        have h1 := (ih f (by omega)).1 t w log hok.1 (by omega)
        rw [h1]
        have h2 := (ih f (by omega)).2 rest w (log ++ preorder t) hok.2 (by omega)
        simp only []
        rw [h2]
        simp [preorderList]

/-- C8: when a node's `onStateChange` runs and the selector reports that no
visible update is warranted (`shouldComponentUpdate` false), it still
immediately runs `notifyNestedSubs` on its own Subscription, and the cascade
reaches every descendant callback — the preorder traversal of the listener
tree below the node — exactly once each for that signal (exactly once being
witnessed by the log count when the descendants are distinct). -/
theorem c8_noop_update_still_notifies (fuel : Nat) (w : World) (i : NodeId)
    (cs : List SubTree) (log : List NodeId)
    (hok : treeOk w (SubTree.mk i cs))
    (hf : fuelForList cs + 1 ≤ fuel) :
    onStateChange fuel w i false log = some (log ++ preorderList cs) ∧
    (∀ j, (preorderList cs).Nodup → j ∈ preorderList cs →
      List.count j (log ++ preorderList cs) = List.count j log + 1) := by
  constructor
  · simp only [treeOk] at hok
    obtain ⟨f, rfl⟩ : ∃ f, fuel = f + 1 := ⟨fuel - 1, by omega⟩
    show invokeList f w ((w.subs i).listeners) log = _
    rw [hok.1]
    exact (cascade_tree f).2 cs w log hok.2 (by omega)
  · intro j hnd hj
    rw [List.count_append]
    rw [List.count_eq_one_of_mem hnd hj]

/-- A concrete fully attached three-node chain (root 0, child 1, grandchild
2), as the attach phase of the source builds it. -/
def demoChainWorld : World :=
  { subs := fun i =>
      { store := some (), parentSub := if i = 0 then none else some (i - 1),
        onStateChange := i, subscribed := true,
        listeners := if i < 2 then [i + 1] else [] },
    storeListeners := [0] }

/-- The listener tree below the root of `demoChainWorld`. -/
def demoTreeChildren : List SubTree := [SubTree.mk 1 [SubTree.mk 2 []]]

/-- C8 witness: at the root of the concrete chain, with
`shouldComponentUpdate` false, the descendants 1 and 2 are each notified
exactly once. -/
theorem c8_witness :
    onStateChange 20 demoChainWorld 0 false [] = some ([] ++ preorderList demoTreeChildren) ∧
    List.count 1 (([] : List NodeId) ++ preorderList demoTreeChildren)
      = List.count 1 ([] : List NodeId) + 1 := by
  have h := c8_noop_update_still_notifies 20 demoChainWorld 0 demoTreeChildren []
    (by simp [treeOk, treesOk, demoChainWorld, demoTreeChildren, SubTree.root])
    (by decide)
  exact ⟨h.1, h.2 1 (by decide) (by decide)⟩

/-- C7 witness: the frame property evaluated at a concrete world, a concrete
fresh node id and a concrete other node id. -/
theorem c7_witness :
    (newSubscription initWorld 1 (some ()) (some 0) 1).subs 1
      = { store := some (), parentSub := some 0, onStateChange := 1,
          subscribed := false, listeners := [] } ∧
    (0 : NodeId) ≠ 1 ∧
    (newSubscription initWorld 1 (some ()) (some 0) 1).subs 0 = initWorld.subs 0 ∧
    (newSubscription initWorld 1 (some ()) (some 0) 1).storeListeners
      = initWorld.storeListeners := by
  have h := c7_constructor_is_pure initWorld 1 (some ()) (some 0) 1
  exact ⟨h.1, by decide, h.2.1 0 (by decide), h.2.2⟩
